import Mathlib

/-!
Verification of the date utilities of a personal-blog repository
(`src/utils/date.ts`): a site-configuration-driven date formatter
(`getFormattedDate`) and an age computation (`getAge`).

The host JavaScript runtime (ECMA-262 `Date`, ECMA-402 `Intl`) is modelled
abstractly by a structure `JsEnv` carrying the post-resolution localized
formatting primitive and the date-string parser; the ECMA-402 options
resolution step `ToDateTimeOptions` (which differs between
`Intl.DateTimeFormat.prototype.format` and `Date.prototype.toLocaleDateString`)
is modelled concretely, since the two code paths of `getFormattedDate` go
through different resolution modes.

`JsEnv.fmtResolved` is total, which is accurate only on valid dates: on a NaN
time value ECMA-402 makes `Intl.DateTimeFormat.prototype.format` throw a
RangeError while `Date.prototype.toLocaleDateString` returns the string
"Invalid Date". The exception-aware refinement (`JsResult`,
`getFormattedDateExc`) models that divergence explicitly; it agrees with the
total model on every valid date.
-/

namespace Blog

/-- The date-time component keys of `Intl.DateTimeFormatOptions`
(ECMA-402 table of date-time components). -/
inductive OptKey
  | weekday
  | era
  | year
  | month
  | day
  | dayPeriod
  | hour
  | minute
  | second
  | fractionalSecondDigits
  | timeZoneName
deriving DecidableEq

/-- A JS options object restricted to the component keys: `some v` means the
own property is present with value `v`, where the inner `Option String`
distinguishes an explicit `undefined` (`none`) from a string value; the outer
`none` means the property is absent. -/
abbrev DateTimeFormatOptions := OptKey → Option (Option String)

/-- Reading an option the way ECMA-402 `GetOption` does: an absent property
and a property explicitly set to `undefined` are indistinguishable. -/
def readOpt (o : DateTimeFormatOptions) (k : OptKey) : Option String :=
  (o k).bind id

/-- The required-component lists of ECMA-402 `ToDateTimeOptions`. -/
inductive RequiredKind
  | dateR
  | timeR
  | anyR

def requiredKeys : RequiredKind → List OptKey
  | .dateR => [.weekday, .year, .month, .day]
  | .timeR => [.dayPeriod, .hour, .minute, .second, .fractionalSecondDigits]
  | .anyR => [.weekday, .year, .month, .day,
              .dayPeriod, .hour, .minute, .second, .fractionalSecondDigits]

/-- Whether any of the listed components is present (and not `undefined`). -/
def hasAnyComponent (o : DateTimeFormatOptions) (ks : List OptKey) : Bool :=
  ks.any fun k => (readOpt o k).isSome

/-- ECMA-402 `ToDateTimeOptions` with defaults = "date": when none of the
required components is present, a copy of the options with `year`, `month` and
`day` set to "numeric" is used instead. `dateStyle` and `timeStyle` are
outside the model. -/
def toDateTimeOptions (req : RequiredKind) (o : DateTimeFormatOptions) :
    DateTimeFormatOptions :=
  if hasAnyComponent o (requiredKeys req) then o
  else fun k =>
    match k with
    | .year => some (some "numeric")
    | .month => some (some "numeric")
    | .day => some (some "numeric")
    | _ => o k

/-- The host JavaScript engine, abstract: `fmtResolved` is the localized
formatting primitive applied after options resolution (`none` stands for an
invalid date, i.e. a NaN time value), `parseDate` is date-string parsing
(`none` = unparseable, giving an invalid date). -/
structure JsEnv where
  fmtResolved : String → (OptKey → Option String) → Option Int → String
  parseDate : String → Option Int

/-- `new Intl.DateTimeFormat(locale, o).format(d)`: options resolved with
required = "any", defaults = "date" (ECMA-402 `CreateDateTimeFormat`). -/
def dateTimeFormatFormat (E : JsEnv) (locale : String)
    (o : DateTimeFormatOptions) (d : Option Int) : String :=
  E.fmtResolved locale (readOpt (toDateTimeOptions .anyR o)) d

/-- `d.toLocaleDateString(locale, o)`: options resolved with
required = "date", defaults = "date" (ECMA-402). -/
def toLocaleDateString (E : JsEnv) (d : Option Int) (locale : String)
    (o : DateTimeFormatOptions) : String :=
  E.fmtResolved locale (readOpt (toDateTimeOptions .dateR o)) d

/-- The argument type of `getFormattedDate`: `string | number | Date`.
A number is an epoch-millisecond time value; a `Date` object is represented
by its time value (`none` = invalid date). -/
inductive DateInput
  | num (n : Int)
  | str (s : String)
  | dateObj (d : Option Int)

/-- `new Date(x)`: a number is time-clipped (|t| must not exceed
8.64e15 ms, ECMA-262 `TimeClip`), a string is parsed by the host, and a
`Date` argument contributes its own time value. -/
def newDate (E : JsEnv) : DateInput → Option Int
  | .num n => if n.natAbs ≤ 8640000000000000 then some n else none
  | .str s => E.parseDate s
  | .dateObj d => d

/-- JS object spread on two options objects: own properties of `b` override
those of `a`, including properties explicitly set to `undefined`. -/
def spread (a b : DateTimeFormatOptions) : DateTimeFormatOptions :=
  fun k => (b k).orElse fun _ => a k

structure SiteConfigDate where
  locale : String
  options : DateTimeFormatOptions

structure SiteConfig where
  date : SiteConfigDate

/-- Modelled from the spec: the `siteConfig` value lives in
`src/site-config.ts`, which is not part of the sources; spec section 8 fixes
locale "en-US" and default options year = "numeric", month = "long",
day = "numeric". -/
def siteConfig : SiteConfig where
  date :=
    { locale := "en-US"
      options := fun k =>
        match k with
        | .year => some (some "numeric")
        | .month => some (some "long")
        | .day => some (some "numeric")
        | _ => none }

/-- The module-level cached formatter
`const dateFormat = new Intl.DateTimeFormat(siteConfig.date.locale, siteConfig.date.options)`,
as the function it denotes. -/
def dateFormat (E : JsEnv) (cfg : SiteConfig) : Option Int → String :=
  dateTimeFormatFormat E cfg.date.locale cfg.date.options

/-- `getFormattedDate` from `src/utils/date.ts`: with override options it
spreads them over the config options and calls `toLocaleDateString`;
without, it calls the cached formatter. -/
def getFormattedDate (E : JsEnv) (cfg : SiteConfig) (date : DateInput)
    (options : Option DateTimeFormatOptions) : String :=
  match options with
  | some o =>
      toLocaleDateString E (newDate E date) cfg.date.locale
        (spread cfg.date.options o)
  | none => dateFormat E cfg (newDate E date)

/-- The observable module state: the configuration captured by the cached
`dateFormat` formatter at module initialization. -/
structure ModuleState where
  cachedLocale : String
  cachedOptions : DateTimeFormatOptions

/-- Module initialization constructs the cached formatter from the site
configuration. -/
def initModule (cfg : SiteConfig) : ModuleState :=
  { cachedLocale := cfg.date.locale, cachedOptions := cfg.date.options }

/-- `getFormattedDate` as a state-passing function over the module state,
making the cached-formatter read and any state change explicit. -/
def getFormattedDateM (E : JsEnv) (cfg : SiteConfig) (st : ModuleState)
    (date : DateInput) (options : Option DateTimeFormatOptions) :
    String × ModuleState :=
  match options with
  | some o =>
      (toLocaleDateString E (newDate E date) cfg.date.locale
        (spread cfg.date.options o), st)
  | none =>
      (E.fmtResolved st.cachedLocale
        (readOpt (toDateTimeOptions .anyR st.cachedOptions))
        (newDate E date), st)

/-- The empty options object. -/
def emptyOptions : DateTimeFormatOptions := fun _ => none

/-- Day count of the proleptic Gregorian date (y, m, d), m in 1..12, relative
to 1970-01-01 (the civil-from-days computation used by ECMA-262 `MakeDay`). -/
def daysFromCivil (y m d : Int) : Int :=
  let ys := y - (if m ≤ 2 then 1 else 0)
  let era := Int.fdiv ys 400
  let yoe := ys - era * 400
  let doy := (153 * (m + (if 2 < m then -3 else 9)) + 2) / 5 + d - 1
  let doe := yoe * 365 + yoe / 4 - yoe / 100 + doy
  era * 146097 + doe - 719468

def msPerDay : Int := 86400000

/-- 365.2425 days of 86400000 ms: the divisor hard-coded in `getAge`. -/
def msPerYear : Int := 31556952000

/-- Epoch milliseconds of local midnight of the civil date (y, m, d) in a
zone where local midnight is `tz` ms after the UTC midnight of that day. -/
def localMidnightMs (y m d tz : Int) : Int :=
  daysFromCivil y m d * msPerDay + tz

/-- `new Date(2003, 8, 29).getTime()`: month index 8 is September; the
constructor interprets the triple in local time. -/
def birthdayMs (tz : Int) : Int := localMidnightMs 2003 9 29 tz

/-- `getAge` from `src/utils/date.ts` with `Date.now()` = `nowMs` and host
zone offset `tz`: `Math.floor` of the elapsed milliseconds divided by
31556952000 is floor division. -/
def getAge (nowMs tz : Int) : Int :=
  Int.fdiv (nowMs - birthdayMs tz) msPerYear

/-- A concrete host engine used to evaluate the theorems on closed inputs. -/
def sampleEnv : JsEnv where
  fmtResolved := fun _ _ d =>
    match d with
    | none => "Invalid Date"
    | some n => toString n
  parseDate := fun s =>
    if s = "2024-04-23T00:00:00Z" then some 1713830400000 else none

/-- Result of a JS formatting call: a returned string or a thrown
exception. -/
inductive JsResult
  | ok (s : String)
  | thrown (e : String)
deriving DecidableEq

/-- Exception-aware `new Intl.DateTimeFormat(locale, o).format(d)`: ECMA-402
`FormatDateTime` throws a RangeError on a NaN time value; on a valid date it
returns the string of the host primitive. -/
def dateTimeFormatFormatExc (E : JsEnv) (locale : String)
    (o : DateTimeFormatOptions) : Option Int → JsResult
  | none => .thrown "RangeError: invalid time value"
  | some t =>
      .ok (E.fmtResolved locale (readOpt (toDateTimeOptions .anyR o)) (some t))

/-- Exception-aware `d.toLocaleDateString(locale, o)`: ECMA-262 returns the
string "Invalid Date" on a NaN time value; on a valid date it returns the
string of the host primitive. -/
def toLocaleDateStringExc (E : JsEnv) (d : Option Int) (locale : String)
    (o : DateTimeFormatOptions) : JsResult :=
  match d with
  | none => .ok "Invalid Date"
  | some t =>
      .ok (E.fmtResolved locale (readOpt (toDateTimeOptions .dateR o)) (some t))

/-- `getFormattedDate` over the exception-aware primitives. -/
def getFormattedDateExc (E : JsEnv) (cfg : SiteConfig) (date : DateInput)
    (options : Option DateTimeFormatOptions) : JsResult :=
  match options with
  | some o =>
      toLocaleDateStringExc E (newDate E date) cfg.date.locale
        (spread cfg.date.options o)
  | none => dateTimeFormatFormatExc E cfg.date.locale cfg.date.options
      (newDate E date)

end Blog

namespace Blog

theorem spread_matches_merge (a b : DateTimeFormatOptions) :
    spread a b = fun k =>
      match b k with
      | some v => some v
      | none => a k := by
  funext k
  show (b k).orElse (fun _ => a k)
      = match b k with
        | some v => some v
        | none => a k
  cases b k <;> rfl

/-- C1: on the default path (no override options) `getFormattedDate` produces
exactly the string of the underlying `Intl.DateTimeFormat` primitive applied
with the configured locale and options, unmodified; this holds both for the
pure function and through the module state as initialized at load. -/
theorem getFormattedDate_default_eq_direct (E : JsEnv) (cfg : SiteConfig)
    (t : DateInput) :
    getFormattedDate E cfg t none
      = dateTimeFormatFormat E cfg.date.locale cfg.date.options (newDate E t) ∧
    (getFormattedDateM E cfg (initModule cfg) t none).1
      = dateTimeFormatFormat E cfg.date.locale cfg.date.options (newDate E t) :=
  ⟨rfl, rfl⟩

/-- C2: with override options `o`, `getFormattedDate` formats with the
configured locale and the shallow merge of the configured options with `o`:
for a key present in `o` the value of `o` wins, any key absent from `o` is
inherited from the configured options. -/
theorem getFormattedDate_override_merge (E : JsEnv) (cfg : SiteConfig)
    (t : DateInput) (o : DateTimeFormatOptions) :
    getFormattedDate E cfg t (some o)
      = toLocaleDateString E (newDate E t) cfg.date.locale
          (fun k =>
            match o k with
            | some v => some v
            | none => cfg.date.options k) := by
  show toLocaleDateString E (newDate E t) cfg.date.locale
      (spread cfg.date.options o) = _
  rw [spread_matches_merge]

/-- C9: `getFormattedDate` is pure and deterministic: a call leaves the module
state unchanged, a second call with identical arguments (run in the state left
by the first) returns the identical string, and from the initial module state
the stateful function agrees with the pure one. -/
theorem getFormattedDate_pure (E : JsEnv) (cfg : SiteConfig) (st : ModuleState)
    (t : DateInput) (o : Option DateTimeFormatOptions) :
    (getFormattedDateM E cfg st t o).2 = st ∧
    (getFormattedDateM E cfg ((getFormattedDateM E cfg st t o).2) t o).1
      = (getFormattedDateM E cfg st t o).1 ∧
    (getFormattedDateM E cfg (initModule cfg) t o).1
      = getFormattedDate E cfg t o := by
  cases o <;> exact ⟨rfl, rfl, rfl⟩

theorem getFormattedDateExc_ok_of_valid (E : JsEnv) (cfg : SiteConfig)
    (t : DateInput) (o : Option DateTimeFormatOptions) (v : Int)
    (h : newDate E t = some v) :
    getFormattedDateExc E cfg t o = .ok (getFormattedDate E cfg t o) := by
  cases o with
  | none =>
      show dateTimeFormatFormatExc E cfg.date.locale cfg.date.options
          (newDate E t) = .ok (dateFormat E cfg (newDate E t))
      rw [h]
      rfl
  | some oo =>
      show toLocaleDateStringExc E (newDate E t) cfg.date.locale
          (spread cfg.date.options oo)
        = .ok (toLocaleDateString E (newDate E t) cfg.date.locale
            (spread cfg.date.options oo))
      rw [h]
      rfl

/-- C10 counterexample: at an unparseable string input the empty-override
path returns the string "Invalid Date" while the omitted-options path throws
a RangeError, so the two paths differ on an invalid date. -/
theorem getFormattedDate_empty_override_cex :
    getFormattedDateExc sampleEnv siteConfig (DateInput.str "not a date")
        (some emptyOptions)
      ≠ getFormattedDateExc sampleEnv siteConfig (DateInput.str "not a date")
        none := by
  decide

/-- C10 (amended): with the site configuration of this repository, for every
date input whose date construction yields a valid date, calling
`getFormattedDate` with an empty override object returns the same result as
calling it with the options argument omitted. -/
theorem getFormattedDate_empty_override_valid (E : JsEnv) (t : DateInput)
    (v : Int) (h : newDate E t = some v) :
    getFormattedDateExc E siteConfig t (some emptyOptions)
      = getFormattedDateExc E siteConfig t none := by
  have hopt : readOpt (toDateTimeOptions .dateR
        (spread siteConfig.date.options emptyOptions))
      = readOpt (toDateTimeOptions .anyR siteConfig.date.options) := by
    funext k
    cases k <;> rfl
  show toLocaleDateStringExc E (newDate E t) siteConfig.date.locale
      (spread siteConfig.date.options emptyOptions)
    = dateTimeFormatFormatExc E siteConfig.date.locale siteConfig.date.options
      (newDate E t)
  rw [h]
  show JsResult.ok (E.fmtResolved siteConfig.date.locale
      (readOpt (toDateTimeOptions .dateR
        (spread siteConfig.date.options emptyOptions))) (some v))
    = JsResult.ok (E.fmtResolved siteConfig.date.locale
      (readOpt (toDateTimeOptions .anyR siteConfig.date.options)) (some v))
  rw [hopt]

/-- C10 witness: the amended statement at a valid concrete instant. -/
theorem getFormattedDate_empty_override_valid_witness :
    newDate sampleEnv (DateInput.num 1713830400000) = some 1713830400000 ∧
    getFormattedDateExc sampleEnv siteConfig (DateInput.num 1713830400000)
        (some emptyOptions)
      = getFormattedDateExc sampleEnv siteConfig (DateInput.num 1713830400000)
        none :=
  ⟨by decide,
   getFormattedDate_empty_override_valid sampleEnv
     (DateInput.num 1713830400000) 1713830400000 (by decide)⟩

/-- C7: `getFormattedDate` never rejects or corrects its input: on an input
whose date construction yields an invalid date, each path returns exactly what
the underlying formatting primitive produces for the invalid date. -/
theorem getFormattedDate_invalid_propagates (E : JsEnv) (cfg : SiteConfig)
    (t : DateInput) (opts : Option DateTimeFormatOptions)
    (h : newDate E t = none) :
    getFormattedDate E cfg t opts
      = match opts with
        | some o =>
            toLocaleDateString E none cfg.date.locale (spread cfg.date.options o)
        | none => dateFormat E cfg none := by
  cases opts with
  | none =>
      show dateFormat E cfg (newDate E t) = dateFormat E cfg none
      rw [h]
  | some o =>
      show toLocaleDateString E (newDate E t) cfg.date.locale
          (spread cfg.date.options o)
        = toLocaleDateString E none cfg.date.locale (spread cfg.date.options o)
      rw [h]

/-- C7 witness: a concrete unparseable string on the default path yields the
primitive output for the invalid date. -/
theorem getFormattedDate_invalid_propagates_witness :
    getFormattedDate sampleEnv siteConfig (DateInput.str "not a date") none
      = dateFormat sampleEnv siteConfig none :=
  getFormattedDate_invalid_propagates sampleEnv siteConfig
    (DateInput.str "not a date") none (by decide)

/-- C8: all `DateInput` variants denoting the same instant format identically:
an in-range epoch-millisecond number, a string the host parses to that
instant, and a date object with that time value give the same string under
any override options. -/
theorem getFormattedDate_input_variants (E : JsEnv) (cfg : SiteConfig)
    (o : Option DateTimeFormatOptions) (t : Int) (s : String)
    (hs : E.parseDate s = some t) (ht : t.natAbs ≤ 8640000000000000) :
    getFormattedDate E cfg (DateInput.num t) o
      = getFormattedDate E cfg (DateInput.str s) o ∧
    getFormattedDate E cfg (DateInput.num t) o
      = getFormattedDate E cfg (DateInput.dateObj (some t)) o := by
  have hn : newDate E (DateInput.num t) = some t := by
    simp [newDate, ht]
  have hs2 : newDate E (DateInput.str s) = some t := hs
  have ho : newDate E (DateInput.dateObj (some t)) = some t := rfl
  cases o with
  | none =>
      constructor
      · show dateFormat E cfg (newDate E (DateInput.num t))
            = dateFormat E cfg (newDate E (DateInput.str s))
        rw [hn, hs2]
      · show dateFormat E cfg (newDate E (DateInput.num t))
            = dateFormat E cfg (newDate E (DateInput.dateObj (some t)))
        rw [hn, ho]
  | some oo =>
      constructor
      · show toLocaleDateString E (newDate E (DateInput.num t))
              cfg.date.locale (spread cfg.date.options oo)
            = toLocaleDateString E (newDate E (DateInput.str s))
              cfg.date.locale (spread cfg.date.options oo)
        rw [hn, hs2]
      · show toLocaleDateString E (newDate E (DateInput.num t))
              cfg.date.locale (spread cfg.date.options oo)
            = toLocaleDateString E (newDate E (DateInput.dateObj (some t)))
              cfg.date.locale (spread cfg.date.options oo)
        rw [hn, ho]

/-- C8 witness: the spec scenario, epoch 1713830400000 against the ISO string
of the same instant. -/
theorem getFormattedDate_input_variants_witness :
    sampleEnv.parseDate "2024-04-23T00:00:00Z" = some 1713830400000 ∧
    getFormattedDate sampleEnv siteConfig (DateInput.num 1713830400000) none
      = getFormattedDate sampleEnv siteConfig
          (DateInput.str "2024-04-23T00:00:00Z") none :=
  ⟨by decide,
   (getFormattedDate_input_variants sampleEnv siteConfig none 1713830400000
      "2024-04-23T00:00:00Z" (by decide) (by decide)).1⟩

end Blog

namespace Blog

/-- C3: `getAge` returns the floor of (current epoch-millisecond time minus
the epoch-millisecond value of the hard-coded birth date 2003-09-29) divided
by 31556952000, the truncated count of elapsed average-length years. -/
theorem getAge_eq_floor (nowMs tz : Int) :
    getAge nowMs tz
      = ⌊((nowMs - birthdayMs tz : Int) : ℚ) / (31556952000 : ℚ)⌋ := by
  have h1 : ((31556952000 : ℚ)) = ((31556952000 : ℕ) : ℚ) := by norm_num
  rw [h1, Rat.floor_intCast_div_natCast]
  show Int.fdiv (nowMs - birthdayMs tz) msPerYear = _
  rw [Int.fdiv_eq_ediv _ (by norm_num [msPerYear])]
  norm_num [msPerYear]

theorem getAge_localMidnight (tz y m d : Int) :
    getAge (localMidnightMs y m d tz) tz
      = Int.fdiv ((daysFromCivil y m d - daysFromCivil 2003 9 29) * msPerDay)
          msPerYear := by
  show Int.fdiv (localMidnightMs y m d tz - birthdayMs tz) msPerYear = _
  congr 1
  show daysFromCivil y m d * msPerDay + tz
      - (daysFromCivil 2003 9 29 * msPerDay + tz) = _
  ring

/-- C4: with the anchor 2003-09-29, `getAge` evaluated at (local midnight of)
2025-09-29 returns 22, and one day earlier, at 2025-09-28, returns 21 —
in any time zone offset. -/
theorem getAge_spec_scenario (tz : Int) :
    getAge (localMidnightMs 2025 9 29 tz) tz = 22 ∧
    getAge (localMidnightMs 2025 9 28 tz) tz = 21 := by
  constructor
  · rw [getAge_localMidnight]
    decide
  · rw [getAge_localMidnight]
    decide

/-- C5: holding the anchor fixed, `getAge` is non-decreasing in the sampling
instant, and strictly increases between `t1 < t2` exactly when some multiple
of the period 31556952000 ms past the anchor lies in the half-open interval
from `t1` (exclusive) to `t2` (inclusive). -/
theorem getAge_monotone (tz t1 t2 : Int) (h : t1 < t2) :
    getAge t1 tz ≤ getAge t2 tz ∧
    (getAge t1 tz < getAge t2 tz ↔
      ∃ k : Int, t1 < birthdayMs tz + k * msPerYear ∧
        birthdayMs tz + k * msPerYear ≤ t2) := by
  have hp : (0 : Int) < msPerYear := by norm_num [msPerYear]
  have hle : ∀ a k : Int, k ≤ a / msPerYear ↔ k * msPerYear ≤ a :=
    fun a k => Int.le_ediv_iff_mul_le hp
  have hlt : ∀ a k : Int, a / msPerYear < k ↔ a < k * msPerYear := by
    intro a k
    constructor
    · intro hh
      by_contra hc
      push_neg at hc
      exact absurd ((hle a k).2 hc) (not_le.2 hh)
    · intro hh
      by_contra hc
      push_neg at hc
      exact absurd ((hle a k).1 hc) (not_le.2 hh)
  have gA : ∀ t : Int, getAge t tz = (t - birthdayMs tz) / msPerYear :=
    fun t => Int.fdiv_eq_ediv _ (le_of_lt hp)
  constructor
  · rw [gA, gA]
    exact Int.ediv_le_ediv hp (by omega)
  · rw [gA, gA]
    constructor
    · intro hlt2
      refine ⟨(t2 - birthdayMs tz) / msPerYear, ?_, ?_⟩
      · have h2 := (hlt (t1 - birthdayMs tz)
            ((t2 - birthdayMs tz) / msPerYear)).1 hlt2
        omega
      · have h3 := (hle (t2 - birthdayMs tz)
            ((t2 - birthdayMs tz) / msPerYear)).1 le_rfl
        omega
    · rintro ⟨k, hk1, hk2⟩
      have h4 : (t1 - birthdayMs tz) / msPerYear < k := (hlt _ k).2 (by omega)
      have h5 : k ≤ (t2 - birthdayMs tz) / msPerYear := (hle _ k).2 (by omega)
      omega

/-- C5 witness: the monotonicity statement instantiated at the concrete
instants 0 and 1 (UTC). -/
theorem getAge_monotone_witness :
    getAge 0 0 ≤ getAge 1 0 ∧
    (getAge 0 0 < getAge 1 0 ↔
      ∃ k : Int, 0 < birthdayMs 0 + k * msPerYear ∧
        birthdayMs 0 + k * msPerYear ≤ 1) :=
  getAge_monotone 0 0 1 (by decide)

/-- C6: when the current time is at or after the anchor, `getAge` is
non-negative; when the current time is strictly before the anchor, `getAge`
is negative — defined behavior in both cases. -/
theorem getAge_sign (nowMs tz : Int) :
    (birthdayMs tz ≤ nowMs → 0 ≤ getAge nowMs tz) ∧
    (nowMs < birthdayMs tz → getAge nowMs tz < 0) := by
  have hp : (0 : Int) < msPerYear := by norm_num [msPerYear]
  have gA : getAge nowMs tz = (nowMs - birthdayMs tz) / msPerYear :=
    Int.fdiv_eq_ediv _ (le_of_lt hp)
  constructor
  · intro hb
    rw [gA]
    exact Int.ediv_nonneg (by omega) (le_of_lt hp)
  · intro hb
    rw [gA]
    exact Int.ediv_neg' (by omega) hp

/-- C6 witness: non-negative exactly at the anchor instant (UTC), negative at
the epoch, which precedes the anchor. -/
theorem getAge_sign_witness :
    0 ≤ getAge 1064793600000 0 ∧ getAge 0 0 < 0 :=
  ⟨(getAge_sign 1064793600000 0).1 (by decide),
   (getAge_sign 0 0).2 (by decide)⟩

end Blog
